import Mathlib

/-!
Shallow embedding of the `trycatch` Rust crate (src/src/lib.rs) and its
derive macro (src/trycatch-derive/src/lib.rs).

The crate emulates Java-style try/catch on top of Rust panics:
`throw(e)` boxes a user exception value into the uniform carrier type
`Box<dyn Exception>` and calls `panic::panic_any` with it; `catch(expr)`
installs a filtering panic hook (suppressing the default log output for
the carrier type), runs `expr` under `std::panic::catch_unwind`, and
classifies the caught payload.

Modelling choices:
  - Run-time values that can travel as panic payloads (`Box<dyn Any + Send>`)
    are `AnyObj`; values of a type implementing the `Exception` trait are
    `ExcObj` (mutually inductive, because a `payload()` box may itself hold
    an exception value, as in the `complex` test of the crate).
  - Rust type identity (the basis of `Any::is`, `downcast` and
    `downcast_ref`) is an explicit tag `TypeId`; the carrier type
    `Box<dyn Exception>` gets the distinguished tag
    `TypeId.boxDynException`, user nominal types get `TypeId.userTy`.
  - Trait methods that may run `unimplemented!()` return
    `Except String _`, the `error` case being the panic raised by the
    default method body.
  - The process-wide panic hook and the `eprintln!` log are explicit state
    (`PState`); a panic runs the currently installed hook at the panic
    site, exactly as Rust runs the hook before unwinding starts.
  - Computations handed to `catch` are a small syntax `Comp` (return,
    throw, ordinary panic, intermediate call frames, sequencing, nested
    catch) with a semantics `Comp.runH` threading the hook state, so that
    claims about nesting depth and nested guards are expressible.
  - The derive macro scans a flat token stream with a `while` loop that
    keeps calling `next()`; the loop is modelled with explicit fuel so
    that its non-termination on keyword-free input is provable: no amount
    of fuel makes it finish.
-/

namespace Trycatch

/-- Rust type identity as used by `Any::is` / `downcast`: either a user
nominal type (identified by its name) or the distinguished carrier type
`Box<dyn Exception>`. -/
inductive TypeId where
  | userTy (n : String)
  | boxDynException
deriving DecidableEq, Repr

mutual

/-- A value of some concrete type implementing the `Exception` trait.
`user ty nameImpl payloadImpl` is a value of user type `ty`; `nameImpl`
is `some s` when the type overrides `fn name` to return the static string
`s`, `none` when it inherits the defaulted body `unimplemented!()`, and
likewise `payloadImpl` for `fn payload`. `boxDyn inner` is a value of
type `Box<dyn Exception>`, which implements `Exception` by delegating
both methods to `inner` (the `impl Exception for Box<dyn Exception>`
block of src/src/lib.rs). -/
inductive ExcObj where
  | user (ty : String) (nameImpl : Option String) (payloadImpl : Option AnyObj)
  | boxDyn (inner : ExcObj)

/-- A type-erased Rust value (`Box<dyn Any>` / panic payload). `plain ty
data` is a value of a non-`Exception` user type `ty` with opaque contents
`data` (e.g. the `&str` payload of an ordinary `panic!`); `ofExc e` is an
exception value viewed as `dyn Any`. -/
inductive AnyObj where
  | plain (ty : String) (data : String)
  | ofExc (e : ExcObj)

end

/-- The concrete dynamic type of an exception value: the nominal type for
a user value, and the single carrier type for any `Box<dyn Exception>`. -/
def ExcObj.typeOf : ExcObj → TypeId
  | .user ty _ _ => .userTy ty
  | .boxDyn _ => .boxDynException

/-- The concrete dynamic type of a `dyn Any` value, as consulted by
`Any::is` and `downcast`. -/
def AnyObj.typeOf : AnyObj → TypeId
  | .plain ty _ => .userTy ty
  | .ofExc e => e.typeOf

/-- The panic message of the defaulted trait method bodies
`unimplemented!()` in the `Exception` trait. -/
def unimplementedMsg : String := "not implemented"

/-- `Exception::name`: `ok` with the overriding static string, `error`
(a panic) from the defaulted `unimplemented!()` body, and delegation for
`Box<dyn Exception>`. -/
def ExcObj.nameM : ExcObj → Except String String
  | .user _ (some s) _ => .ok s
  | .user _ none _ => .error unimplementedMsg
  | .boxDyn inner => inner.nameM

/-- `Exception::payload`: `ok` with the box built by the overriding body,
`error` (a panic) from the defaulted `unimplemented!()` body, and
delegation for `Box<dyn Exception>`. -/
def ExcObj.payloadM : ExcObj → Except String AnyObj
  | .user _ _ (some p) => .ok p
  | .user _ _ none => .error unimplementedMsg
  | .boxDyn inner => inner.payloadM

/-- The carrier test `payload.downcast_ref::<Box<dyn Exception>>().is_some()`
(equivalently `e.is::<Box<dyn Exception>>()`): does the dynamic type of
the value equal the carrier type? -/
def AnyObj.isCarrier (p : AnyObj) : Bool := p.typeOf = TypeId.boxDynException

/-- `throw`: `panic::panic_any(Box::new(e) as Box<dyn Exception>)` panics
with a payload whose concrete type is `Box<dyn Exception>` and whose
contents box `e`. -/
def throwPayload (e : ExcObj) : AnyObj := .ofExc (.boxDyn e)

/-- The result of `catch`: `CatchError::Exception(Box<dyn Exception>)`
for a recognised typed exception, `CatchError::Panic(Box<dyn Any + Send>)`
for any other panic. -/
inductive CatchError where
  | exception (e : ExcObj)
  | panic (p : AnyObj)

/-- Classification done by `catch` on a caught payload `e`:
`if e.is::<Box<dyn Exception>>()` then
`CatchError::Exception(*e.downcast::<Box<dyn Exception>>().unwrap())`,
else `CatchError::Panic(e)`. A payload has carrier type exactly when it
is `ofExc (boxDyn _)`, so the guarded `downcast().unwrap()` never fails
and the whole conditional is this match. -/
def classify : AnyObj → CatchError
  | .ofExc (.boxDyn e) => .exception (.boxDyn e)
  | p => .panic p

/-- A process-wide panic hook. `ambient n` is whatever hook was installed
before a `catch` (the std default hook, or any other); `filterHook` is
the closure installed by `register_catch`, which stays silent for carrier
payloads and otherwise prints like the normal flow. -/
inductive Hook where
  | ambient (n : Nat)
  | filterHook
deriving DecidableEq, Repr

/-- Rendering of a payload inside the `eprintln!("{}", panic_info)`
diagnostic line. -/
def AnyObj.display : AnyObj → String
  | .plain ty d => ty ++ ": " ++ d
  | .ofExc _ => "Box<dyn Any>"

/-- The diagnostic line the normal flow prints for a panic payload. -/
def panicLine (p : AnyObj) : String := "thread panicked: " ++ p.display

/-- Default fault logging: always print the diagnostic line. -/
def normalFlow (p : AnyObj) : Option String := some (panicLine p)

/-- Running a hook on a panic payload, returning the line it prints (if
any). The filtering hook installed by `register_catch` checks
`panic_info.payload().downcast_ref::<Box<dyn Exception>>()`: for a
carrier it prints nothing, otherwise it runs the normal flow
`eprintln!("{}", panic_info)`. -/
def hookRun : Hook → AnyObj → Option String
  | .ambient _, p => normalFlow p
  | .filterHook, p => if p.isCarrier then none else normalFlow p

/-- Process state visible to the panic machinery: the currently installed
hook (`std::panic::take_hook` / `set_hook`) and the accumulated stderr
log. -/
structure PState where
  hook : Hook
  log : List String
deriving DecidableEq, Repr

/-- Raising a panic runs the currently installed hook at the panic site
(before unwinding), appending its output, if any, to the log. -/
def PState.emit (s : PState) (p : AnyObj) : PState :=
  match hookRun s.hook p with
  | some msg => { s with hook := s.hook, log := s.log ++ [msg] }
  | none => s

/-- How a computation ends: normal completion, or unwinding with a panic
payload. -/
inductive Outcome where
  | normal
  | panicked (payload : AnyObj)

/-- The closures handed to `catch`, as a small syntax: return normally,
`throw` an exception, raise an ordinary `panic!` with a message, an
intermediate function-call frame, sequencing, and a nested `catch`
(whose classified result is dropped, keeping only its effects). -/
inductive Comp where
  | ret
  | throwE (e : ExcObj)
  | panicWith (msg : String)
  | call (body : Comp)
  | seq (a b : Comp)
  | catchC (body : Comp)

/-- Semantics of a computation, threading the hook/log state. `throw`
panics with the carrier payload and never produces `normal`; a panic
unwinds through `call` frames and aborts the rest of a `seq`; a nested
`catch` takes the current hook, installs the filtering hook, runs its
body under `catch_unwind` (so the unwind stops there), and its
`Unregister` guard restores the displaced hook on every exit path. -/
def Comp.runH : Comp → PState → Outcome × PState
  | .ret, s => (.normal, s)
  | .throwE e, s => (.panicked (throwPayload e), s.emit (throwPayload e))
  | .panicWith m, s =>
      (.panicked (AnyObj.plain "&str" m), s.emit (AnyObj.plain "&str" m))
  | .call b, s => b.runH s
  | .seq a b, s =>
      match a.runH s with
      | (.normal, s1) => b.runH s1
      | r => r
  | .catchC b, s =>
      let prev := s.hook
      let r := b.runH { s with hook := Hook.filterHook }
      (.normal, { r.2 with hook := prev })

/-- The `catch` function of src/src/lib.rs: `register_catch` takes the
previous hook and installs the filtering hook; the computation runs under
`std::panic::catch_unwind`; the caught payload is classified by
`classify`; and the `Unregister` guard drops at the end of the block —
`catch_unwind` has already contained any unwind, so the drop runs on the
normal and the panicked path alike — restoring the displaced hook. -/
def catchRun (c : Comp) (s : PState) : Except CatchError Unit × PState :=
  let prev := s.hook
  let r := c.runH { s with hook := Hook.filterHook }
  (match r.1 with
   | .normal => .ok ()
   | .panicked p => .error (classify p),
   { r.2 with hook := prev })

/-- `n` intermediate call frames between the catch boundary and the body. -/
def nestCalls : Nat → Comp → Comp
  | 0, c => c
  | n + 1, c => .call (nestCalls n c)

/-- Modelled from the spec: the downcast utility on erased exception
values. The crate itself only produces the erased `Box<dyn Any>` (from
`Exception::payload`, src/src/lib.rs lines 116-119); the recoverable
downcast the spec calls `try_downcast<T>` is realised by the standard
`Box<dyn Any>::downcast::<T>`, which is not part of src/. Per Rust
semantics it succeeds exactly when the dynamic type of the value is `T`,
and on mismatch returns the original box unchanged as the error value;
it has no panic path, which the totality of this function models. -/
def try_downcast (t : TypeId) (v : AnyObj) : Except AnyObj AnyObj :=
  if v.typeOf = t then .ok v else .error v

end Trycatch

namespace TrycatchDerive

/-- A top-level token of the input `TokenStream` of the derive macro
(src/trycatch-derive/src/lib.rs). Each carries its `to_string()` text. -/
inductive TokenTree where
  | ident (s : String)
  | group (s : String)
  | punct (s : String)
  | lit (s : String)
deriving DecidableEq, Repr

/-- `TokenTree::to_string()` of a token. -/
def TokenTree.text : TokenTree → String
  | .ident s => s
  | .group s => s
  | .punct s => s
  | .lit s => s

/-- `is_struct_or_enum`: false for `None`, and for `Some` true exactly
for an identifier token spelling `struct` or `enum`. -/
def is_struct_or_enum : Option TokenTree → Bool
  | some (.ident s) => s == "struct" || s == "enum"
  | _ => false

/-- The scanning loop `while !is_struct_or_enum(item.next()) {}` of
`derive_exception`, with explicit fuel (one unit per call to `next()`).
`some rest` is the iterator state after the loop exits; `none` means the
fuel ran out with the loop still spinning. On an exhausted iterator
`next()` keeps returning `None`, for which `is_struct_or_enum` is false,
so the loop body runs again. -/
def scanLoop : Nat → List TokenTree → Option (List TokenTree)
  | 0, _ => none
  | fuel + 1, toks =>
      if is_struct_or_enum toks.head? then some toks.tail
      else scanLoop fuel toks.tail

/-- The `impl Exception for {0} ...` block emitted by the derive macro,
structured: the target type name spliced after `impl Exception for`, the
string literal `"{0}"` returned by the emitted `fn name`, and the body
expression of the emitted `fn into_any`. -/
structure EmittedImpl where
  targetTy : String
  nameBody : String
  intoAnyBody : String
deriving DecidableEq, Repr

/-- The `format!` template of `derive_exception` with `{0} := ident`:
`fn name` returns the identifier as a string literal, `fn into_any`
returns `self`. -/
def impl_exception (ident : String) : EmittedImpl :=
  { targetTy := ident, nameBody := ident, intoAnyBody := "self" }

/-- `derive_exception`: scan the token stream until a `struct` / `enum`
identifier (fuel-bounded model of the `while` loop), read the following
token as the type identifier, and emit the impl block. `none` covers the
non-returning paths: the loop still spinning when the fuel ends, and the
`Could not find identifier` error that the trailing `.unwrap()` turns
into a panic. -/
def derive_exception (fuel : Nat) (item : List TokenTree) : Option EmittedImpl :=
  match scanLoop fuel item with
  | none => none
  | some rest =>
      match rest.head? with
      | none => none
      | some t => some (impl_exception t.text)

end TrycatchDerive

namespace Trycatch

/-- A concrete initial process state: some ambient hook, empty log. -/
def initS : PState := { hook := Hook.ambient 0, log := [] }

theorem PState.emit_hook (s : PState) (p : AnyObj) : (s.emit p).hook = s.hook := by
  unfold PState.emit
  cases hookRun s.hook p <;> rfl

theorem Comp.runH_hook (c : Comp) : ∀ s : PState, ((c.runH s).2).hook = s.hook := by
  induction c with
  | ret => intro s; rfl
  | throwE e => intro s; simpa [Comp.runH] using PState.emit_hook s (throwPayload e)
  | panicWith m =>
      intro s
      simpa [Comp.runH] using PState.emit_hook s (AnyObj.plain "&str" m)
  | call b ih => intro s; simpa [Comp.runH] using ih s
  | seq a b iha ihb =>
      intro s
      have ha := iha s
      simp only [Comp.runH]
      rcases h : a.runH s with ⟨o, s1⟩
      rw [h] at ha
      cases o with
      | normal => simpa using (ihb s1).trans ha
      | panicked p => simpa using ha
  | catchC b ih => intro s; simp [Comp.runH]

theorem runH_nestCalls (n : Nat) (c : Comp) (s : PState) :
    (nestCalls n c).runH s = c.runH s := by
  induction n with
  | zero => rfl
  | succ n ih => simpa [nestCalls, Comp.runH] using ih

theorem classify_exception_iff (p : AnyObj) :
    (∃ b, classify p = CatchError.exception b)
      ↔ p.typeOf = TypeId.boxDynException := by
  cases p with
  | plain ty d => simp [classify, AnyObj.typeOf]
  | ofExc e =>
      cases e with
      | user ty nm pl => simp [classify, AnyObj.typeOf, ExcObj.typeOf]
      | boxDyn inner => simp [classify, AnyObj.typeOf, ExcObj.typeOf]

theorem classify_not_carrier (p : AnyObj) (h : p.isCarrier = false) :
    classify p = CatchError.panic p := by
  cases p with
  | plain ty d => rfl
  | ofExc e =>
      cases e with
      | user ty nm pl => rfl
      | boxDyn inner => simp [AnyObj.isCarrier, AnyObj.typeOf, ExcObj.typeOf] at h

/-- C1: for every exception type E implementing the Exception capability
and every value e of type E, catch of a computation that throws e returns
the `CatchError.Exception` outcome whose recovered `name()` and
`payload()` equal those of e, regardless of how many intermediate call
frames separate the throw from the catch. -/
theorem catch_throw_roundtrip (e : ExcObj) (n : Nat) (s : PState) :
    ∃ r, (catchRun (nestCalls n (Comp.throwE e)) s).1
          = Except.error (CatchError.exception r)
      ∧ r.nameM = e.nameM ∧ r.payloadM = e.payloadM := by
  refine ⟨ExcObj.boxDyn e, ?_, rfl, rfl⟩
  simp [catchRun, runH_nestCalls, Comp.runH, throwPayload, classify]

/-- C2: when the computation unwinds, catch classifies the carried value:
a `FaultCarrier` (`Box<dyn Exception>`) payload yields
`CatchError.Exception` wrapping the inner exception value, any other
payload yields `CatchError.Panic` holding the raw carried value (in
particular an ordinary `panic!("message")` inside catch), and normal
completion yields the success variant. -/
theorem catch_classifies (c : Comp) (s : PState) :
    (∀ s1, c.runH { s with hook := Hook.filterHook } = (Outcome.normal, s1) →
        (catchRun c s).1 = Except.ok ())
  ∧ (∀ ex s1,
        c.runH { s with hook := Hook.filterHook }
          = (Outcome.panicked (AnyObj.ofExc (ExcObj.boxDyn ex)), s1) →
        (catchRun c s).1 = Except.error (CatchError.exception (ExcObj.boxDyn ex)))
  ∧ (∀ p s1,
        c.runH { s with hook := Hook.filterHook } = (Outcome.panicked p, s1) →
        p.isCarrier = false →
        (catchRun c s).1 = Except.error (CatchError.panic p)) := by
  refine ⟨?_, ?_, ?_⟩
  · intro s1 h
    simp [catchRun, h]
  · intro ex s1 h
    simp [catchRun, h, classify]
  · intro p s1 h hc
    simp [catchRun, h, classify_not_carrier p hc]

/-- Witness for C2 at concrete inputs: a computation that returns, one
that throws a typed exception, and one that raises an ordinary panic. -/
theorem catch_classifies_witness :
    (catchRun Comp.ret initS).1 = Except.ok ()
  ∧ (catchRun (Comp.throwE (ExcObj.user "MyE" (some "MyE") none)) initS).1
      = Except.error
          (CatchError.exception (ExcObj.boxDyn (ExcObj.user "MyE" (some "MyE") none)))
  ∧ (catchRun (Comp.panicWith "message") initS).1
      = Except.error (CatchError.panic (AnyObj.plain "&str" "message")) :=
  ⟨(catch_classifies Comp.ret initS).1 _ rfl,
   (catch_classifies (Comp.throwE (ExcObj.user "MyE" (some "MyE") none)) initS).2.1
     (ExcObj.user "MyE" (some "MyE") none) _ rfl,
   (catch_classifies (Comp.panicWith "message") initS).2.2
     (AnyObj.plain "&str" "message") _ rfl rfl⟩

/-- C3: on every exit path of catch the guard restores exactly the hook
it displaced, so the process hook after catch equals the hook before;
each nested `catchC` likewise restores the hook it displaced, and more
generally running any computation (with arbitrarily nested catches)
leaves the installed hook unchanged. -/
theorem catch_restores_hook (c : Comp) (s : PState) :
    ((catchRun c s).2).hook = s.hook
  ∧ (∀ b : Comp, ∀ s2 : PState, (((Comp.catchC b).runH s2).2).hook = s2.hook)
  ∧ (∀ b : Comp, ∀ s2 : PState, ((b.runH s2).2).hook = s2.hook) := by
  refine ⟨rfl, ?_, ?_⟩
  · intro b s2
    simp [Comp.runH]
  · intro b s2
    exact Comp.runH_hook b s2

/-- C4: while the filtering hook of a catch is installed, default fault
logging is suppressed exactly for carrier payloads (`Box<dyn Exception>`):
the hook prints nothing for a carrier and falls through to the normal
diagnostic line for everything else, so a non-carrier panic under the
guard still appends the normal line to the log. -/
theorem filter_hook_suppresses_exactly_carriers (p : AnyObj) (s : PState) :
    (hookRun Hook.filterHook p = none ↔ p.isCarrier = true)
  ∧ (p.isCarrier = false → hookRun Hook.filterHook p = normalFlow p)
  ∧ (s.hook = Hook.filterHook → p.isCarrier = true → s.emit p = s)
  ∧ (s.hook = Hook.filterHook → p.isCarrier = false →
        (s.emit p).log = s.log ++ [panicLine p]) := by
  refine ⟨?_, ?_, ?_, ?_⟩
  · cases hc : p.isCarrier <;> simp [hookRun, hc, normalFlow]
  · intro hc
    simp [hookRun, hc]
  · intro hs hc
    simp [PState.emit, hs, hookRun, hc]
  · intro hs hc
    simp [PState.emit, hs, hookRun, hc, normalFlow]

/-- Witness for C4 at concrete inputs: under the filtering hook a thrown
carrier payload leaves the state untouched while an ordinary panic
payload appends the normal diagnostic line. -/
theorem filter_hook_suppresses_witness :
    hookRun Hook.filterHook (throwPayload (ExcObj.user "E" none none)) = none
  ∧ (PState.emit { hook := Hook.filterHook, log := [] }
        (throwPayload (ExcObj.user "E" none none)))
      = { hook := Hook.filterHook, log := [] }
  ∧ (PState.emit { hook := Hook.filterHook, log := [] }
        (AnyObj.plain "&str" "boom")).log
      = [panicLine (AnyObj.plain "&str" "boom")] :=
  ⟨(filter_hook_suppresses_exactly_carriers
      (throwPayload (ExcObj.user "E" none none))
      { hook := Hook.filterHook, log := [] }).1.mpr rfl,
   (filter_hook_suppresses_exactly_carriers
      (throwPayload (ExcObj.user "E" none none))
      { hook := Hook.filterHook, log := [] }).2.2.1 rfl rfl,
   by
    have h3 := (filter_hook_suppresses_exactly_carriers
      (AnyObj.plain "&str" "boom")
      { hook := Hook.filterHook, log := [] }).2.2.2 rfl rfl
    simpa using h3⟩

/-- C5: throw wraps its argument in exactly the uniform carrier type
(`Box<dyn Exception>`) before the unwind primitive runs — the panic
payload is `ofExc (boxDyn e)` and its dynamic type is the carrier type —
throw never completes normally, and the classification inside catch
recognises a payload as a typed exception exactly when its dynamic type
is that single carrier type, never by any individual user type. -/
theorem throw_wraps_carrier (e : ExcObj) (s : PState) :
    ((Comp.throwE e).runH s).1 = Outcome.panicked (AnyObj.ofExc (ExcObj.boxDyn e))
  ∧ (throwPayload e).typeOf = TypeId.boxDynException
  ∧ ((Comp.throwE e).runH s).1 ≠ Outcome.normal
  ∧ (∀ p : AnyObj,
        (∃ b, classify p = CatchError.exception b)
          ↔ p.typeOf = TypeId.boxDynException) := by
  refine ⟨rfl, rfl, ?_, ?_⟩
  · simp [Comp.runH]
  · intro p
    exact classify_exception_iff p

/-- Witness for C5 at a concrete exception value and state. -/
theorem throw_wraps_carrier_witness :
    ((Comp.throwE (ExcObj.user "E" none none)).runH initS).1
      = Outcome.panicked (AnyObj.ofExc (ExcObj.boxDyn (ExcObj.user "E" none none)))
  ∧ (throwPayload (ExcObj.user "E" none none)).typeOf = TypeId.boxDynException
  ∧ ((Comp.throwE (ExcObj.user "E" none none)).runH initS).1 ≠ Outcome.normal :=
  ⟨(throw_wraps_carrier (ExcObj.user "E" none none) initS).1,
   (throw_wraps_carrier (ExcObj.user "E" none none) initS).2.1,
   (throw_wraps_carrier (ExcObj.user "E" none none) initS).2.2.1⟩

/-- C6: an exception value recovered from an inner catch (a
`Box<dyn Exception>`, which itself implements the Exception capability by
delegation) has the name and payload of the thrown value, and re-throwing
it is caught by an enclosing catch as a typed exception whose recovered
name and payload equal those of the originally recovered exception. -/
theorem rethrow_preserves_identity (e r : ExcObj) (s s2 : PState)
    (h : (catchRun (Comp.throwE e) s).1 = Except.error (CatchError.exception r)) :
    r.nameM = e.nameM ∧ r.payloadM = e.payloadM
  ∧ ∃ r2, (catchRun (Comp.throwE r) s2).1 = Except.error (CatchError.exception r2)
      ∧ r2.nameM = r.nameM ∧ r2.payloadM = r.payloadM := by
  have hval : (catchRun (Comp.throwE e) s).1
      = Except.error (CatchError.exception (ExcObj.boxDyn e)) := by
    simp [catchRun, Comp.runH, throwPayload, classify]
  rw [hval] at h
  injection h with h1
  injection h1 with h2
  subst h2
  refine ⟨rfl, rfl, ExcObj.boxDyn (ExcObj.boxDyn e), ?_, rfl, rfl⟩
  simp [catchRun, Comp.runH, throwPayload, classify]

/-- Witness for C6: the exception recovered from catching a throw of the
value of user type B is re-thrown and recovered with name and payload
intact. -/
theorem rethrow_preserves_identity_witness :
    ∃ r2,
      (catchRun
          (Comp.throwE (ExcObj.boxDyn (ExcObj.user "B" (some "B") none))) initS).1
        = Except.error (CatchError.exception r2)
      ∧ r2.nameM = (ExcObj.boxDyn (ExcObj.user "B" (some "B") none)).nameM
      ∧ r2.payloadM = (ExcObj.boxDyn (ExcObj.user "B" (some "B") none)).payloadM :=
  (rethrow_preserves_identity (ExcObj.user "B" (some "B") none)
      (ExcObj.boxDyn (ExcObj.user "B" (some "B") none)) initS initS rfl).2.2

/-- C7: a type implementing the Exception capability without overriding
`name()` gets the defaulted body: calling it does not return a value but
raises the `unimplemented!()` panic, whatever the type and whatever its
payload implementation. -/
theorem default_name_unimplemented (ty : String) (pl : Option AnyObj) :
    (ExcObj.user ty none pl).nameM = Except.error unimplementedMsg := rfl

/-- C8: the recoverable downcast on an erased exception value succeeds
exactly when the dynamic type of the value is the requested type; on
mismatch it returns the original erased value unchanged as the error
case; and a success returns the value itself, whose dynamic type is
the requested one — no coercion. -/
theorem try_downcast_exact (t : TypeId) (v : AnyObj) :
    ((∃ w, try_downcast t v = Except.ok w) ↔ v.typeOf = t)
  ∧ (v.typeOf ≠ t → try_downcast t v = Except.error v)
  ∧ (∀ w, try_downcast t v = Except.ok w → w = v ∧ w.typeOf = t) := by
  by_cases h : v.typeOf = t
  · refine ⟨?_, ?_, ?_⟩
    · simp [try_downcast, h]
    · intro hc
      exact absurd h hc
    · intro w hw
      simp [try_downcast, h] at hw
      exact ⟨hw.symm, by rw [hw] at h; exact h⟩
  · refine ⟨?_, ?_, ?_⟩
    · simp [try_downcast, h]
    · intro _
      simp [try_downcast, h]
    · intro w hw
      simp [try_downcast, h] at hw

/-- Witness for C8: downcasting an erased value of user type B to B
succeeds, and to a different type A fails returning the value unchanged. -/
theorem try_downcast_exact_witness :
    (∃ w, try_downcast (TypeId.userTy "B") (AnyObj.plain "B" "x") = Except.ok w)
  ∧ try_downcast (TypeId.userTy "A") (AnyObj.plain "B" "x")
      = Except.error (AnyObj.plain "B" "x") :=
  ⟨(try_downcast_exact (TypeId.userTy "B") (AnyObj.plain "B" "x")).1.mpr rfl,
   (try_downcast_exact (TypeId.userTy "A") (AnyObj.plain "B" "x")).2.1 (by decide)⟩

end Trycatch

namespace TrycatchDerive

theorem scanLoop_skip (pre : List TokenTree) (toks : List TokenTree) (f : Nat)
    (hpre : ∀ t ∈ pre, is_struct_or_enum (some t) = false) :
    scanLoop (pre.length + f) (pre ++ toks) = scanLoop f toks := by
  induction pre with
  | nil => simp
  | cons t ts ih =>
      have ht : is_struct_or_enum (some t) = false := hpre t (by simp)
      have hrec := ih (fun u hu => hpre u (by simp [hu]))
      have hlen : (t :: ts).length + f = (ts.length + f) + 1 := by
        simp [List.length_cons]
        omega
      rw [hlen]
      simp [scanLoop, ht, hrec]

theorem scanLoop_keyword (kw : String) (rest : List TokenTree) (f : Nat)
    (hkw : kw = "struct" ∨ kw = "enum") :
    scanLoop (f + 1) (TokenTree.ident kw :: rest) = some rest := by
  rcases hkw with h | h <;> subst h <;> simp [scanLoop, is_struct_or_enum]

theorem scanLoop_none (fuel : Nat) :
    ∀ toks : List TokenTree, (∀ t ∈ toks, is_struct_or_enum (some t) = false) →
      scanLoop fuel toks = none := by
  induction fuel with
  | zero =>
      intro toks _
      rfl
  | succ fuel ih =>
      intro toks h
      cases toks with
      | nil =>
          simp [scanLoop, is_struct_or_enum]
          exact ih [] (by simp)
      | cons t ts =>
          have ht := h t (by simp)
          simp [scanLoop, ht]
          exact ih ts (fun u hu => h u (by simp [hu]))

/-- C9: on a token stream of a nominal type declaration — any tokens
without a `struct` / `enum` identifier, then the keyword, then the type
identifier — the derive macro (given enough fuel for its scanning loop)
emits the impl block whose `fn name` returns the textual identifier of
the type as a static string literal and whose `fn into_any` body is
`self`. -/
theorem derive_emits_impl (pre rest : List TokenTree) (kw tyName : String) (f : Nat)
    (hpre : ∀ t ∈ pre, is_struct_or_enum (some t) = false)
    (hkw : kw = "struct" ∨ kw = "enum") :
    derive_exception (pre.length + (f + 1))
        (pre ++ TokenTree.ident kw :: TokenTree.ident tyName :: rest)
      = some { targetTy := tyName, nameBody := tyName, intoAnyBody := "self" } := by
  have hs : scanLoop (pre.length + (f + 1))
        (pre ++ TokenTree.ident kw :: TokenTree.ident tyName :: rest)
      = some (TokenTree.ident tyName :: rest) := by
    rw [scanLoop_skip pre _ (f + 1) hpre]
    exact scanLoop_keyword kw _ f hkw
  simp [derive_exception, hs, impl_exception, TokenTree.text]

/-- Witness for C9 at the token stream of `struct MyE;`. -/
theorem derive_emits_impl_witness :
    derive_exception 1
        [TokenTree.ident "struct", TokenTree.ident "MyE", TokenTree.punct ";"]
      = some { targetTy := "MyE", nameBody := "MyE", intoAnyBody := "self" } :=
  derive_emits_impl [] [TokenTree.punct ";"] "struct" "MyE" 0
    (by simp) (Or.inl rfl)

/-- C10: on any input token stream with no identifier token spelling
`struct` or `enum` the scanning loop of the derive macro never exits —
`is_struct_or_enum` is false for every token and stays false for the
`None` that the exhausted iterator keeps returning — so no amount of
fuel lets the scan or the whole macro produce a result. -/
theorem derive_no_keyword_diverges (toks : List TokenTree)
    (h : ∀ t ∈ toks, is_struct_or_enum (some t) = false) :
    ∀ fuel : Nat, scanLoop fuel toks = none ∧ derive_exception fuel toks = none := by
  intro fuel
  have hs := scanLoop_none fuel toks h
  exact ⟨hs, by simp [derive_exception, hs]⟩

/-- Witness for C10 at the keyword-free token stream of `fn foo` and a
concrete fuel amount. -/
theorem derive_no_keyword_diverges_witness :
    scanLoop 3 [TokenTree.ident "fn", TokenTree.ident "foo"] = none
  ∧ derive_exception 3 [TokenTree.ident "fn", TokenTree.ident "foo"] = none :=
  derive_no_keyword_diverges [TokenTree.ident "fn", TokenTree.ident "foo"]
    (by decide) 3

end TrycatchDerive
